import Mathlib

set_option maxRecDepth 100000

/- Verification development for the requirements-gathering demo script
   (src/requirements_demo.py). The pure logic of the script is shallowly
   embedded: strings are Lean strings, Python floats are modelled as exact
   rationals, and every external effect (LLM calls, console input, AWS
   calls, the clock) is supplied by an environment whose entries either
   return text or raise a modelled Python exception. -/

namespace ReqDemo

/-- Python exceptions relevant to the script: KeyboardInterrupt (a
BaseException, not caught by `except Exception`) and ordinary exceptions
carrying a message (str(e)) and a formatted traceback. -/
inductive PyExc where
  | keyboardInterrupt
  | exc (msg : String) (tb : String)
deriving DecidableEq, Repr

/-- Python regex `\s` restricted to the ASCII range (the script only ever
meets ASCII whitespace): space, tab, LF, CR, VT, FF. -/
def isPySpace (c : Char) : Bool :=
  c = ' ' || c = '\t' || c = '\n' || c = '\r' || c = '\x0b' || c = '\x0c'

/-- Python str.lower, restricted to ASCII letters. -/
def pyLower (s : String) : String := ⟨s.data.map Char.toLower⟩

/-- Python str.strip with no argument: drop whitespace from both ends. -/
def pyStrip (s : String) : String :=
  ⟨((s.data.dropWhile isPySpace).reverse.dropWhile isPySpace).reverse⟩

/-- Match a literal character sequence at the head of a list, returning the
remainder on success. -/
def dropLit : List Char → List Char → Option (List Char)
  | [], cs => some cs
  | _ :: _, [] => none
  | l :: ls, c :: cs => if c = l then dropLit ls cs else none

/-- Does the needle occur as a contiguous sublist anywhere in the haystack? -/
def containsSub (needle : List Char) : List Char → Bool
  | [] => (dropLit needle []).isSome
  | c :: cs => (dropLit needle (c :: cs)).isSome || containsSub needle cs

/-- Python `needle in hay` on strings. -/
def strContains (hay needle : String) : Bool := containsSub needle.data hay.data

/-- Python str.replace(pat, "") for a nonempty pattern: delete every
leftmost, non-overlapping occurrence. Fuel-based recursion; any fuel of at
least the length of the list gives the replace semantics. -/
def removeAllSub (pat : List Char) : Nat → List Char → List Char
  | 0, cs => cs
  | _ + 1, [] => []
  | fuel + 1, c :: cs =>
    match dropLit pat (c :: cs) with
    | some rest => removeAllSub pat fuel rest
    | none => c :: removeAllSub pat fuel cs

/-- The fixed marker the handoff tool prepends to captured user input. -/
def marker : String := "User response received: "

/-- The post-checkpoint cleanup applied to every handoff result: when the
marker substring is present, str.replace deletes every occurrence of it,
not only a leading one. -/
def stripMarker (t : String) : String :=
  if strContains t marker then ⟨removeAllSub marker.data (t.data.length + 1) t.data⟩ else t

/-- Value of a run of ASCII digits. -/
def digitsToNat (ds : List Char) : Nat :=
  ds.foldl (fun n c => 10 * n + (c.toNat - 48)) 0

/-- float() applied to a captured decimal numeral `\d+(\.\d+)?`, modelled
exactly as a rational (the captured numerals are short, so the float value
the script computes is the same number). -/
def numOf (intPart fracPart : List Char) : ℚ :=
  mkRat (digitsToNat intPart * 10 ^ fracPart.length + digitsToNat fracPart) (10 ^ fracPart.length)

/-- One attempt of the first score regex `(?:confidence|score):\s*(\d+(?:\.\d+)?)`
anchored at the head of the list, returning float() of the capture. The
alternation tries "confidence" first; the two literals start with different
characters, so the try order cannot change the outcome at a fixed position.
Greedy `\s*` and `\d+` never need to backtrack here because nothing after
them can match a whitespace character or a digit respectively. -/
def matchConfAt (cs : List Char) : Option ℚ :=
  let afterKw :=
    match dropLit "confidence".data cs with
    | some r => some r
    | none => dropLit "score".data cs
  match afterKw with
  | none => none
  | some r =>
    match r with
    | ':' :: r1 =>
      let r2 := r1.dropWhile isPySpace
      let ds := r2.takeWhile Char.isDigit
      if ds.isEmpty then none
      else
        match r2.drop ds.length with
        | '.' :: r4 =>
          let fs := r4.takeWhile Char.isDigit
          if fs.isEmpty then some (numOf ds []) else some (numOf ds fs)
        | _ => some (numOf ds [])
    | _ => none

/-- re.search of the first score pattern: leftmost position wins. -/
def searchConf : List Char → Option ℚ
  | [] => none
  | c :: cs =>
    match matchConfAt (c :: cs) with
    | some q => some q
    | none => searchConf cs

/-- One attempt of the fallback regex `(\d+(?:\.\d+)?)/10` anchored at the
head. The optional fraction group backtracks as a whole: if taking it
leaves no "/10", the engine retries without it (which can only succeed when
the character after the integer digits is "/", kept for fidelity to the
engine even though a "." there makes that retry fail). -/
def matchSlashTenAt (cs : List Char) : Option ℚ :=
  let ds := cs.takeWhile Char.isDigit
  if ds.isEmpty then none
  else
    let r := cs.drop ds.length
    match r with
    | '.' :: r2 =>
      let fs := r2.takeWhile Char.isDigit
      if !fs.isEmpty && (dropLit "/10".data (r2.drop fs.length)).isSome then some (numOf ds fs)
      else if (dropLit "/10".data r).isSome then some (numOf ds [])
      else none
    | _ => if (dropLit "/10".data r).isSome then some (numOf ds []) else none

/-- re.search of the fallback pattern. -/
def searchSlashTen : List Char → Option ℚ
  | [] => none
  | c :: cs =>
    match matchSlashTenAt (c :: cs) with
    | some q => some q
    | none => searchSlashTen cs

/-- Python builtin min on two numbers: the second argument only when it is
strictly smaller. -/
def pyMin (a b : ℚ) : ℚ := if b < a then b else a

/-- Python builtin max on two numbers: the second argument only when it is
strictly larger. -/
def pyMax (a b : ℚ) : ℚ := if a < b then b else a

/-- extract_confidence_score on evaluator output text: lowercase the text,
search the "confidence: N"/"score: N" pattern, fall back to "N/10", default
to 7.0, and clamp the result into [0, 10]. (The Python function also
accepts a tool-result dict, from which it first pulls content[0]["text"];
the orchestrator model below hands it that text directly.) -/
def extract_confidence_score (evaluation_text : String) : ℚ :=
  let lower := (pyLower evaluation_text).data
  let score : ℚ :=
    match searchConf lower with
    | some q => q
    | none =>
      match searchSlashTen lower with
      | some q => q
      | none => 7
  pyMax 0 (pyMin 10 score)

/-- The fixed ordered section list the interview walks through. -/
def SECTIONS : List String :=
  ["PROJECT SCOPE", "USER STORIES", "TECHNICAL CONSTRAINTS", "SUCCESS CRITERIA", "FILE FORMAT SUPPORT"]

/-- The per-section questions, in the same order as SECTIONS. -/
def section_questions : List String :=
  ["What are the main objectives, goals, and scope of this project?",
   "What are the key user stories, use cases, and workflows for this project?",
   "What technical constraints, platform requirements, and limitations should be considered?",
   "What are the success criteria and acceptance metrics for this project?",
   "What file formats and data specifications need to be supported by this project?"]

/-- Python dict assignment d[k] = v: replace in place when the key exists,
append at the end otherwise. -/
def dictSet {α : Type} (d : List (String × α)) (k : String) (v : α) : List (String × α) :=
  if (d.lookup k).isSome then d.map (fun p => if p.1 = k then (k, v) else p) else d ++ [(k, v)]

/-- The `if section in responses: responses[section] += add` update. -/
def dictAdd (d : List (String × String)) (k add : String) : List (String × String) :=
  if (d.lookup k).isSome then d.map (fun p => if p.1 = k then (p.1, p.2 ++ add) else p) else d

/-- First section name whose literal followed by ":" matches at the head of
the list: the alternation of the categorization pattern. No section name is
a proper extension of another, so at most one alternative can match. -/
def headerAtAux : List String → List Char → Option (String × List Char)
  | [], _ => none
  | n :: ns, cs =>
    match dropLit (n ++ ":").data cs with
    | some rest => some (n, rest)
    | none => headerAtAux ns cs

def headerAt (cs : List Char) : Option (String × List Char) := headerAtAux SECTIONS cs

/-- A position where the lookahead `(?=(?:SECTION):|$)` of the
categorization regex succeeds: the start of another section header, the end
of the string, or just before a final newline (the non-MULTILINE `$`). -/
def isStop (cs : List Char) : Bool :=
  (headerAt cs).isSome || cs.isEmpty || cs = ['\n']

/-- The lazy `(.*?)` group of the categorization pattern under DOTALL:
collect characters up to the first stop position. -/
def takeUntilStop : List Char → (List Char × List Char)
  | [] => ([], [])
  | c :: cs =>
    if isStop (c :: cs) then ([], c :: cs)
    else
      let (a, r) := takeUntilStop cs
      (c :: a, r)

/-- re.findall of the section-block pattern
`(SECTION...):\s*(.*?)(?=(?:SECTION...):|$)` with DOTALL: scan left to
right; at a header, consume it and the greedy whitespace, capture the lazy
body up to the next stop, and resume at the stop position (the lookahead
consumes nothing). Each match consumes at least one character, so fuel of
the input length suffices. -/
def findallBlocksAux : Nat → List Char → List (String × String)
  | 0, _ => []
  | _ + 1, [] => []
  | fuel + 1, c :: cs =>
    match headerAt (c :: cs) with
    | some (name, afterColon) =>
      let body := afterColon.dropWhile isPySpace
      let (captured, rest) := takeUntilStop body
      (name, ⟨captured⟩) :: findallBlocksAux fuel rest
    | none => findallBlocksAux fuel cs

def findallBlocks (s : String) : List (String × String) :=
  findallBlocksAux (s.data.length + 1) s.data

/-- The evaluate_confidence tool: builds its message from the response and
section name, forwards it to the evaluation agent, and converts any
`Exception` into the fallback text (a `KeyboardInterrupt` is a
BaseException and passes through `except Exception`). -/
def evaluate_confidence (llm : String → Except PyExc String) (response section_name : String) :
    Except PyExc String :=
  match llm ("Evaluate this " ++ section_name ++ " response: " ++ response) with
  | .ok t => .ok t
  | .error .keyboardInterrupt => .error .keyboardInterrupt
  | .error (.exc m _) =>
    .ok ("Confidence Score: 7.0/10\n\nError occurred during evaluation: " ++ m)

/-- The validate_response tool, with its own fallback text. -/
def validate_response (llm : String → Except PyExc String) (response section_name : String) :
    Except PyExc String :=
  match llm ("Identify issues in this " ++ section_name ++ " response: " ++ response) with
  | .ok t => .ok t
  | .error .keyboardInterrupt => .error .keyboardInterrupt
  | .error (.exc m _) =>
    .ok ("No critical issues found.\n\nError occurred during validation: " ++ m)

/-- The generate_requirements_doc tool: on Exception it returns an error
string in place of a document. -/
def generate_requirements_doc (llm : String → Except PyExc String)
    (project_name requirements_data : String) : Except PyExc String :=
  match llm ("Generate a requirements document in Markdown format based on this information:\n\n"
      ++ requirements_data) with
  | .ok t => .ok t
  | .error .keyboardInterrupt => .error .keyboardInterrupt
  | .error (.exc m _) => .ok ("Error occurred during document generation: " ++ m)

/-- One Bedrock retrieval result: the optional content text and the
optional documentMetadata record with its optional source and location
fields. -/
structure RetrResult where
  contentText : Option String
  docMetadata : Option (Option String × Option String)
deriving DecidableEq, Repr

def sourceOf (r : RetrResult) : String :=
  match r.docMetadata with
  | some (some s, _) => s
  | some (none, some l) => l
  | _ => "Unknown source"

def contentOf (r : RetrResult) : String := r.contentText.getD "No content"

/-- The formatted_results list, numbered from 1. -/
def formatResults : Nat → List RetrResult → List String
  | _, [] => []
  | i, r :: rs =>
    ("Source " ++ toString i ++ " (" ++ sourceOf r ++ "):\n" ++ contentOf r ++ "\n")
      :: formatResults (i + 1) rs

/-- Python sep.join. -/
def joinSep (sep : String) : List String → String
  | [] => ""
  | [x] => x
  | x :: y :: xs => x ++ sep ++ joinSep sep (y :: xs)

/-- query_knowledge_base: a ClientError and a generic Exception are both
converted to the same "Error querying knowledge base: str(e)" text; an
empty result list gives the fixed no-information string; a
KeyboardInterrupt matches neither handler and propagates. -/
def query_knowledge_base (retrieve : String → Except PyExc (List RetrResult))
    (query : String) : Except PyExc String :=
  match retrieve query with
  | .error .keyboardInterrupt => .error .keyboardInterrupt
  | .error (.exc m _) => .ok ("Error querying knowledge base: " ++ m)
  | .ok results =>
    if results.isEmpty then .ok "No information found in the knowledge base for this query."
    else .ok (joinSep "\n" (formatResults 1 results))

/-- The external world of one run: console input, the retrieval API, the
orchestrating agent, the handoff tool, the three specialised agents, the
clock, the local file system and DynamoDB. Each entry returns text (or
unit) or raises. -/
structure Env where
  nameInput : Except PyExc String
  retrieve : String → Except PyExc (List RetrResult)
  agentText : String → Except PyExc String
  handoff : String → Bool → Except PyExc String
  evalAgent : String → Except PyExc String
  validAgent : String → Except PyExc String
  docAgent : String → Except PyExc String
  timestamp : String
  writeResult : Except PyExc Unit
  dynamoResource : Except PyExc Unit
  tableStatus : Except PyExc Unit
  createTable : Except PyExc Unit
  putItem : Except PyExc Unit

/-- Decimal rendering of a nonnegative score with one fractional digit,
standing in for Python "%.1f" formatting (round half to even); it only
feeds prompt text, never a decision. -/
def fmtQ1 (q : ℚ) : String :=
  let s : ℚ := Rat.mul q (mkRat 10 1)
  let fl : ℤ := Int.fdiv s.num s.den
  let frac2 : ℚ := Rat.sub (Rat.mul (mkRat 2 1) s) (mkRat (2 * fl) 1)
  let r : ℤ :=
    if Rat.blt (mkRat 1 1) frac2 then fl + 1
    else if Rat.blt frac2 (mkRat 1 1) then fl
    else if fl % 2 = 0 then fl else fl + 1
  let n := r.toNat
  toString (n / 10) ++ "." ++ toString (n % 10)

def inputMsg (s : String) : String := "Please provide your input for " ++ s ++ ":"

def addMsg : String :=
  "Do you want to add anything else to any section? If yes, please specify the section and provide the additional information:"

def reviewMsg : String :=
  "Please review the requirements document. Would you like to make any changes? If yes, please specify what changes you'd like to make:"

def saveMsg : String :=
  "Would you like to save this requirements document to DynamoDB? (yes/no)"

def additionalAgentPrompt : String := "Ask the user if they want to add anything else to any section."

def categorizePrompt (t : String) : String :=
  "Categorize this additional information into the appropriate section(s) from these options: "
  ++ joinSep ", " SECTIONS
  ++ "\n\nAdditional information: " ++ t
  ++ "\n\nReturn only the section name in uppercase, followed by a colon, and then the cleaned information.\nExample: \"PROJECT SCOPE: Additional information about project scope.\"\nIf information applies to multiple sections, return multiple sections separated by newlines."

def updatePrompt (doc feedback : String) : String :=
  "Original document:\n\n" ++ doc ++ "\n\nUser feedback:\n" ++ feedback
  ++ "\n\nPlease update the document based on this feedback. Maintain the Markdown format and document structure.\n"

/-- The requirements_data string handed to the document generator. -/
def buildRequirementsData (pn : String) (resp : List (String × String))
    (scores : List (String × ℚ)) : String :=
  "Project Name: " ++ pn ++ "\n\n"
  ++ String.join (resp.map (fun p => p.1 ++ ":\n" ++ p.2 ++ "\n\n"))
  ++ "Confidence Scores:\n"
  ++ String.join (scores.map (fun p => p.1 ++ ": " ++ fmtQ1 p.2 ++ "/10\n"))

def noAddSet : List String := ["no", "n", "none", ""]

def noChangeSet : List String := ["no", "n", "none", "", "looks good", "approved"]

def yesSet : List String := ["yes", "y", "sure", "ok"]

/-- Reading the project name from standard input when none was passed:
strip it and substitute the placeholder when empty. -/
def promptName (env : Env) : Except PyExc String :=
  match env.nameInput with
  | .error e => .error e
  | .ok s =>
    let s := pyStrip s
    .ok (if s = "" then "Unnamed Project" else s)

/-- `if not project_name:` — both None and the empty string prompt. -/
def resolveProjectName (pn? : Option String) (env : Env) : Except PyExc String :=
  match pn? with
  | some n => if n = "" then promptName env else .ok n
  | none => promptName env

/-- The text of a successful external call; only applied under a hypothesis
that the call did succeed. -/
def okText (e : Except PyExc String) : String :=
  match e with
  | .ok t => t
  | .error _ => ""

/-- The per-section collection loop: optional knowledge-base lookup, agent
question formulation, handoff in continue mode, marker cleanup, dict
store. -/
def collectSectionsLoop (env : Env) (useKb : Bool) :
    List (String × String) → List (String × String) → Except PyExc (List (String × String))
  | [], acc => .ok acc
  | (s, q) :: rest, acc =>
    let kbStep : Except PyExc String :=
      if useKb then
        query_knowledge_base env.retrieve ("best practices for " ++ pyLower s ++ " in software projects")
      else .ok ""
    match kbStep with
    | .error e => .error e
    | .ok kbInfo =>
      let prompt :=
        if useKb then
          "Based on this knowledge base information: " ++ kbInfo
          ++ "\n\nAsk the user about " ++ s ++ ": " ++ q
        else "Ask the user about " ++ s ++ ": " ++ q
      match env.agentText prompt with
      | .error e => .error e
      | .ok _ =>
        match env.handoff (inputMsg s) false with
        | .error e => .error e
        | .ok raw => collectSectionsLoop env useKb rest (dictSet acc s (stripMarker raw))

/-- The appends performed for the categorized additional-information
blocks, in match order. -/
def applyAdditions (d : List (String × String)) (blocks : List (String × String)) :
    List (String × String) :=
  blocks.foldl (fun r p => dictAdd r p.1 ("\n\nAdditional Information:\n" ++ pyStrip p.2)) d

/-- The additional-information phase: handoff in terminate mode, skip on a
"nothing to add" reply, otherwise one categorization call whose output is
parsed with the section-block pattern and folded into the answers. Returns
the updated answers and the number of categorization calls. -/
def additionalPhase (env : Env) (resp : List (String × String)) :
    Except PyExc (List (String × String) × Nat) :=
  match env.agentText additionalAgentPrompt with
  | .error e => .error e
  | .ok _ =>
    match env.handoff addMsg true with
    | .error e => .error e
    | .ok raw =>
      if pyLower (stripMarker raw) ∈ noAddSet then .ok (resp, 0)
      else
        match env.agentText (categorizePrompt (stripMarker raw)) with
        | .error e => .error e
        | .ok cat => .ok (applyAdditions resp (findallBlocks cat), 1)

/-- Accumulated state of the evaluation loop: confidence scores, validation
issues, and the invocation trace of the Response Validator. -/
structure EvalOut where
  scores : List (String × ℚ)
  issues : List (String × String)
  validated : List String
deriving Repr

/-- The evaluation loop over responses.items(): evaluate each section,
extract its score, and validate exactly the sections scoring strictly
below 7.0. -/
def evalLoop (env : Env) : List (String × String) → EvalOut → Except PyExc EvalOut
  | [], acc => .ok acc
  | (s, r) :: rest, acc =>
    match evaluate_confidence env.evalAgent r s with
    | .error e => .error e
    | .ok evTxt =>
      let score := extract_confidence_score evTxt
      let acc1 : EvalOut := { acc with scores := dictSet acc.scores s score }
      if score < (7 : ℚ) then
        match validate_response env.validAgent r s with
        | .error e => .error e
        | .ok vTxt =>
          evalLoop env rest
            { acc1 with issues := dictSet acc1.issues s vTxt, validated := acc1.validated ++ [s] }
      else evalLoop env rest acc1

/-- The document review: handoff in terminate mode; a "no changes" reply
keeps the document, anything else makes exactly one update call whose
output replaces it. Returns the final document and the update-call count. -/
def reviewPhase (env : Env) (doc : String) : Except PyExc (String × Nat) :=
  match env.handoff reviewMsg true with
  | .error e => .error e
  | .ok raw =>
    if pyLower (stripMarker raw) ∈ noChangeSet then .ok (doc, 0)
    else
      match env.agentText (updatePrompt doc (stripMarker raw)) with
      | .error e => .error e
      | .ok u => .ok (u, 1)

/-- project_name.lower().replace(" ", "_"). -/
def slugOf (pn : String) : String :=
  ⟨(pyLower pn).data.map (fun c => if c = ' ' then '_' else c)⟩

/-- Observable outcome of the DynamoDB block: whether the persistence
branch was entered, how often the table-existence probe ran, and the key of
a successful put_item. -/
structure DynTrace where
  persistAttempted : Bool
  probeCalls : Nat
  putKey : Option (String × String)
deriving DecidableEq, Repr

/-- The table-existence probe with its bare `except:` — it swallows every
exception, KeyboardInterrupt included, into the table-creation branch;
only an exception of the creation itself (waiter included) leaves. -/
def dynamoProbe (env : Env) : Option PyExc :=
  match env.tableStatus with
  | .ok _ => none
  | .error _ =>
    match env.createTable with
    | .ok _ => none
    | .error e => some e

/-- The persistence branch entered on an affirmative reply: resource
construction, the table probe, then put_item keyed by (slug, timestamp). -/
def dynamoYesBranch (env : Env) (slug ts : String) : DynTrace × Option PyExc :=
  match env.dynamoResource with
  | .error e => (⟨true, 0, none⟩, some e)
  | .ok _ =>
    match dynamoProbe env with
    | some e => (⟨true, 1, none⟩, some e)
    | none =>
      match env.putItem with
      | .error e => (⟨true, 1, none⟩, some e)
      | .ok _ => (⟨true, 1, some (slug, ts)⟩, none)

/-- The body of the DynamoDB try block, before its `except Exception`
handler: the save-to-db handoff, the yes-set test, and the persistence
branch. Returns the trace together with the exception leaving the body, if
any. -/
def dynamoBlockRun (env : Env) (slug ts : String) : DynTrace × Option PyExc :=
  match env.handoff saveMsg true with
  | .error e => (⟨false, 0, none⟩, some e)
  | .ok raw =>
    if pyLower (stripMarker raw) ∈ yesSet then dynamoYesBranch env slug ts
    else (⟨false, 0, none⟩, none)

/-- The DynamoDB block with its `except Exception` handler: an ordinary
exception is caught locally and the run continues; a KeyboardInterrupt
propagates. -/
def dynamoBlock (env : Env) (slug ts : String) : Except PyExc DynTrace :=
  match dynamoBlockRun env slug ts with
  | (tr, none) => .ok tr
  | (_, some .keyboardInterrupt) => .error .keyboardInterrupt
  | (tr, some (.exc _ _)) => .ok tr

/-- Observable trace of one successful run body. -/
structure Trace where
  validated : List String
  categorizeCalls : Nat
  updateCalls : Nat
  fileWritten : Option (String × String)
  dyn : DynTrace

/-- Everything a successful run body produces. -/
structure Out where
  projectName : String
  preAddResponses : List (String × String)
  responses : List (String × String)
  scores : List (String × ℚ)
  issues : List (String × String)
  genDocText : String
  finalDoc : String
  overall : ℚ
  filename : String
  trace : Trace

/-- The arithmetic mean of the collected scores (0 on an empty dict),
written with the core Rat operations so that it evaluates by reduction. -/
def overallOf (scores : List (String × ℚ)) : ℚ :=
  if scores.length = 0 then 0
  else Rat.div ((scores.map Prod.snd).foldl Rat.add 0) (mkRat scores.length 1)

/-- The body of gather_requirements inside its top-level try: the linear
interview pipeline. Every step is a hard synchronisation point; the first
exception aborts the body. -/
def runBody (pn? : Option String) (useKb : Bool) (env : Env) : Except PyExc Out :=
  match resolveProjectName pn? env with
  | .error e => .error e
  | .ok pn =>
  match collectSectionsLoop env useKb (SECTIONS.zip section_questions) [] with
  | .error e => .error e
  | .ok resp0 =>
  match additionalPhase env resp0 with
  | .error e => .error e
  | .ok (resp, catCalls) =>
  match evalLoop env resp ⟨[], [], []⟩ with
  | .error e => .error e
  | .ok ev =>
  match generate_requirements_doc env.docAgent pn (buildRequirementsData pn resp ev.scores) with
  | .error e => .error e
  | .ok doc =>
  match reviewPhase env doc with
  | .error e => .error e
  | .ok (finalDoc, updCalls) =>
  let filename := "requirements_" ++ env.timestamp ++ ".md"
  match env.writeResult with
  | .error e => .error e
  | .ok _ =>
  match dynamoBlock env (slugOf pn) env.timestamp with
  | .error e => .error e
  | .ok dtr =>
    .ok { projectName := pn, preAddResponses := resp0, responses := resp,
          scores := ev.scores, issues := ev.issues, genDocText := doc, finalDoc := finalDoc,
          overall := overallOf ev.scores, filename := filename,
          trace := { validated := ev.validated, categorizeCalls := catCalls,
                     updateCalls := updCalls, fileWritten := some (filename, finalDoc),
                     dyn := dtr } }

/-- The statistics sub-record of the success dictionary. -/
structure Stats where
  sectionsProcessed : Nat
  totalResponses : Nat
  timestamp : String
  kbEnhanced : Bool
  overallConfidence : ℚ
deriving DecidableEq, Repr

/-- The terminal record of a run. -/
inductive RunResult where
  | success (projectName savedFilename : String) (stats : Stats)
  | interrupted (message : String)
  | error (errMsg tb : String)
deriving DecidableEq, Repr

def statsOf (useKb : Bool) (env : Env) (out : Out) : Stats :=
  { sectionsProcessed := SECTIONS.length, totalResponses := out.responses.length,
    timestamp := env.timestamp, kbEnhanced := useKb, overallConfidence := out.overall }

/-- gather_requirements: the body wrapped in the top-level
`except KeyboardInterrupt` / `except Exception` pair. It always returns
exactly one RunResult. -/
def gather_requirements (pn? : Option String) (useKb : Bool) (env : Env) : RunResult :=
  match runBody pn? useKb env with
  | .ok out => .success out.projectName out.filename (statsOf useKb env out)
  | .error .keyboardInterrupt => .interrupted "Session interrupted by user"
  | .error (.exc m tb) => .error m tb

/-- The "status" field of the returned dictionary. -/
def statusOf : RunResult → String
  | .success _ _ _ => "success"
  | .interrupted _ => "interrupted"
  | .error _ _ => "error"

/-- Modelled from the spec: the per-answer transformation the spec
describes, the fixed marker treated as a prefix and stripped only when the
text starts with it; compared against stripMarker, which the code actually
applies. -/
def stripLeadingMarkerSpec (t : String) : String :=
  if marker.data.isPrefixOf t.data then ⟨t.data.drop marker.data.length⟩ else t

/-- The answer stored for a section in a run where its checkpoint
succeeded: the checkpoint text after marker cleanup. -/
def answerOf (env : Env) (s : String) : String :=
  stripMarker (okText (env.handoff (inputMsg s) false))

/-- No score pattern matches the lowered text: the condition under which
extract_confidence_score falls back to the default. -/
def noScoreMatch (s : String) : Prop :=
  searchConf (pyLower s).data = none ∧ searchSlashTen (pyLower s).data = none

/-- A canned environment builder: fixed handoff replies chosen by message,
a stubbed document generator, and everything else succeeding. -/
def mkEnv (h : String → String) (docText : String) : Env :=
  { nameInput := .ok "Console Project",
    retrieve := fun _ => .ok [],
    agentText := fun _ => .ok "Question?",
    handoff := fun m _ => .ok (h m),
    evalAgent := fun _ => .ok "Confidence Score: 8/10",
    validAgent := fun _ => .ok "1. Missing detail",
    docAgent := fun _ => .ok docText,
    timestamp := "20250101_120000",
    writeResult := .ok (),
    dynamoResource := .ok (),
    tableStatus := .ok (),
    createTable := .ok (),
    putItem := .ok () }

/-- The canned replies of the end-to-end scenario: the five section
answers, then "no" to every terminate-mode checkpoint. -/
def e2eReplies (m : String) : String :=
  if m = inputMsg "PROJECT SCOPE" then "Build a todo app for teams"
  else if m = inputMsg "USER STORIES" then "As a user I want to add tasks"
  else if m = inputMsg "TECHNICAL CONSTRAINTS" then "Must run on web and mobile"
  else if m = inputMsg "SUCCESS CRITERIA" then "90% of tasks completed within app"
  else if m = inputMsg "FILE FORMAT SUPPORT" then "Support CSV and JSON import"
  else "no"

/-- The end-to-end scenario environment with the stubbed generator. -/
def e2eEnv : Env := mkEnv e2eReplies "# Req Doc"

/-- Environment whose evaluator scores PROJECT SCOPE below threshold,
TECHNICAL CONSTRAINTS exactly at it, and the rest above it. -/
def c3Env : Env :=
  { mkEnv (fun _ => "no") "# Doc" with
    evalAgent := fun p =>
      .ok (if p = "Evaluate this PROJECT SCOPE response: no" then "Confidence Score: 3/10"
           else if p = "Evaluate this TECHNICAL CONSTRAINTS response: no" then "Confidence Score: 7/10"
           else "Confidence Score: 8/10") }

/-- Environment whose PROJECT SCOPE reply embeds the marker in the middle
of the text rather than as a prefix. -/
def c4Env : Env :=
  mkEnv (fun m => if m = inputMsg "PROJECT SCOPE" then "aUser response received: b" else "no") "# Doc"

/-- Environment that supplies additional information for USER STORIES. -/
def c5Env : Env :=
  { mkEnv (fun m => if m = addMsg then "USER STORIES: extra workflow detail" else "no") "# Doc" with
    agentText := fun p =>
      .ok (if p = categorizePrompt "USER STORIES: extra workflow detail"
           then "USER STORIES: extra workflow detail" else "Question?") }

/-- Environment whose review reply requests a change, with the update call
returning a revised document. -/
def c6Env : Env :=
  { mkEnv (fun m => if m = reviewMsg then "Please add a risks section" else "no") "# Doc" with
    agentText := fun p =>
      .ok (if p = updatePrompt "# Doc" "Please add a risks section"
           then "# Updated Doc" else "Question?") }

/-- Environment in which a KeyboardInterrupt is raised by the DynamoDB
table-existence probe while the user asked for persistence. -/
def c8KiEnv : Env :=
  { mkEnv (fun m => if m = saveMsg then "yes" else "no") "# Doc" with
    tableStatus := .error .keyboardInterrupt }

/-- Environment in which a KeyboardInterrupt is raised while the output
file is being written. -/
def c8IntEnv : Env :=
  { mkEnv (fun _ => "no") "# Doc" with writeResult := .error .keyboardInterrupt }

/-- Environment in which put_item raises an ordinary exception while the
user asked for persistence. -/
def c10Env : Env :=
  { mkEnv (fun m => if m = saveMsg then "yes" else "no") "# Doc" with
    putItem := .error (.exc "boom" "trace") }

theorem lookup_append {α : Type} (l1 l2 : List (String × α)) (k : String) :
    (l1 ++ l2).lookup k =
      match l1.lookup k with
      | some v => some v
      | none => l2.lookup k := by
  induction l1 with
  | nil => simp
  | cons p tl ih =>
    obtain ⟨a, b⟩ := p
    cases hk : (k == a) with
    | true => simp [List.lookup_cons, hk]
    | false => simp [List.lookup_cons, hk, ih]

theorem dictSet_not_mem {α : Type} {d : List (String × α)} {k : String} (v : α)
    (h : d.lookup k = none) : dictSet d k v = d ++ [(k, v)] := by
  simp [dictSet, h]

theorem lookup_map_add (d : List (String × String)) (k a s : String) :
    (d.map (fun p => if p.1 = k then (p.1, p.2 ++ a) else p)).lookup s =
      if s = k then (d.lookup s).map (· ++ a) else d.lookup s := by
  induction d with
  | nil => by_cases h : s = k <;> simp [h]
  | cons p tl ih =>
    obtain ⟨x, y⟩ := p
    by_cases hxk : x = k
    · subst hxk
      by_cases hsx : s = x
      · subst hsx; simp [List.lookup_cons, ih]
      · have : (s == x) = false := by simp [hsx]
        simp [List.lookup_cons, this, ih, hsx]
    · by_cases hsx : s = x
      · subst hsx
        have : (s = k) = False := by simp [hxk]
        simp [List.lookup_cons, hxk, this]
      · have : (s == x) = false := by simp [hsx]
        simp [List.lookup_cons, hxk, this, ih]

theorem lookup_dictAdd (d : List (String × String)) (k a s : String) :
    (dictAdd d k a).lookup s = if s = k then (d.lookup s).map (· ++ a) else d.lookup s := by
  unfold dictAdd
  by_cases h : (d.lookup k).isSome
  · simp [h, lookup_map_add]
  · have hk : d.lookup k = none := by
      cases hc : d.lookup k with
      | none => rfl
      | some v => rw [hc] at h; simp at h
    by_cases hsk : s = k
    · subst hsk; simp [h, hk]
    · simp [h, hsk]

theorem map_fst_update (d : List (String × String)) (k a : String) :
    (d.map (fun p => if p.1 = k then (p.1, p.2 ++ a) else p)).map Prod.fst = d.map Prod.fst := by
  induction d with
  | nil => rfl
  | cons p tl ih => by_cases h : p.1 = k <;> simp [h, ih]

theorem dictAdd_keys (d : List (String × String)) (k a : String) :
    (dictAdd d k a).map Prod.fst = d.map Prod.fst := by
  unfold dictAdd
  by_cases h : (d.lookup k).isSome
  · simp only [h, if_true]
    exact map_fst_update d k a
  · simp [h]

theorem applyAdditions_keys (blocks : List (String × String)) :
    ∀ d, (applyAdditions d blocks).map Prod.fst = d.map Prod.fst := by
  induction blocks with
  | nil => intro d; rfl
  | cons b bs ih =>
    intro d
    show (applyAdditions (dictAdd d b.1 _) bs).map Prod.fst = _
    rw [ih, dictAdd_keys]

theorem applyAdditions_extends (blocks : List (String × String)) :
    ∀ d s v, d.lookup s = some v →
      ∃ ext, (applyAdditions d blocks).lookup s = some (v ++ ext) := by
  induction blocks with
  | nil =>
    intro d s v h
    exact ⟨"", by simpa using h⟩
  | cons b bs ih =>
    intro d s v h
    show ∃ ext, (applyAdditions (dictAdd d b.1 ("\n\nAdditional Information:\n" ++ pyStrip b.2)) bs).lookup s = _
    by_cases hsk : s = b.1
    · have hadd : (dictAdd d b.1 ("\n\nAdditional Information:\n" ++ pyStrip b.2)).lookup s =
          some (v ++ ("\n\nAdditional Information:\n" ++ pyStrip b.2)) := by
        rw [lookup_dictAdd, if_pos hsk, h]
        rfl
      obtain ⟨ext, hext⟩ := ih _ s _ hadd
      exact ⟨("\n\nAdditional Information:\n" ++ pyStrip b.2) ++ ext,
        by rwa [String.append_assoc] at hext⟩
    · have hadd : (dictAdd d b.1 ("\n\nAdditional Information:\n" ++ pyStrip b.2)).lookup s = some v := by
        rw [lookup_dictAdd]
        simp [hsk, h]
      exact ih _ s _ hadd

theorem lookup_append_single {α : Type} (d : List (String × α)) (k s : String) (v : α) :
    (d ++ [(k, v)]).lookup s =
      match d.lookup s with
      | some w => some w
      | none => if s = k then some v else none := by
  rw [lookup_append]
  cases hd : d.lookup s with
  | some w => rfl
  | none =>
    by_cases h : s = k
    · subst h
      simp [List.lookup_cons]
    · have hb : (s == k) = false := by simp [h]
      simp [List.lookup_cons, hb, h]

theorem collect_ok (env : Env) (useKb : Bool) :
    ∀ (l acc r : List (String × String)),
      collectSectionsLoop env useKb l acc = .ok r →
      (∀ p ∈ l, acc.lookup p.1 = none) →
      (l.map Prod.fst).Nodup →
      r = acc ++ l.map (fun p => (p.1, answerOf env p.1)) := by
  intro l
  induction l with
  | nil =>
    intro acc r h _ _
    simp only [collectSectionsLoop] at h
    cases h
    simp
  | cons p tl ih =>
    intro acc r h hfresh hnd
    obtain ⟨s, q⟩ := p
    simp only [collectSectionsLoop] at h
    split at h
    · cases h
    · rename_i kbInfo hkb
      split at h
      · cases h
      · rename_i q2 hagent
        split at h
        · cases h
        · rename_i raw hraw
          have haccs : acc.lookup s = none := hfresh (s, q) (List.mem_cons_self _ _)
          rw [dictSet_not_mem _ haccs] at h
          have hndtl : (tl.map Prod.fst).Nodup := by
            simpa using hnd.of_cons
          have hsnot : s ∉ tl.map Prod.fst := by
            intro hmem
            exact (List.nodup_cons.mp (by simpa using hnd)).1 hmem
          have hfresh2 : ∀ p ∈ tl, (acc ++ [(s, stripMarker raw)]).lookup p.1 = none := by
            intro p hp
            rw [lookup_append, hfresh p (List.mem_cons_of_mem _ hp)]
            have hps : ¬ (p.1 == s) = true := by
              simp only [beq_iff_eq]
              intro hcontra
              exact hsnot (hcontra ▸ List.mem_map_of_mem Prod.fst hp)
            simp [List.lookup_cons, hps]
          have := ih _ r h hfresh2 hndtl
          rw [this]
          have hans : answerOf env s = stripMarker raw := by
            simp [answerOf, hraw, okText]
          simp [hans, List.append_assoc]

theorem evalLoop_inv (env : Env) :
    ∀ (l : List (String × String)) (acc ev : EvalOut),
      evalLoop env l acc = .ok ev →
      (∀ p ∈ l, acc.scores.lookup p.1 = none) →
      (l.map Prod.fst).Nodup →
      (∀ s q, acc.scores.lookup s = some q →
        (((acc.issues.lookup s).isSome) ↔ q < 7) ∧ ((s ∈ acc.validated) ↔ q < 7)) →
      (∀ s, (acc.issues.lookup s).isSome → (acc.scores.lookup s).isSome) →
      (∀ s, s ∈ acc.validated → (acc.scores.lookup s).isSome) →
      (∀ s q, ev.scores.lookup s = some q →
        (((ev.issues.lookup s).isSome) ↔ q < 7) ∧ ((s ∈ ev.validated) ↔ q < 7)) := by
  intro l
  induction l with
  | nil =>
    intro acc ev h _ _ hinv _ _
    simp only [evalLoop] at h
    cases h
    exact hinv
  | cons p tl ih =>
    intro acc ev h hfresh hnd hinv hisub hvsub
    obtain ⟨s, r⟩ := p
    have hs0 : acc.scores.lookup s = none := hfresh (s, r) (List.mem_cons_self _ _)
    have hndtl : (tl.map Prod.fst).Nodup := by simpa using hnd.of_cons
    have hsnot : s ∉ tl.map Prod.fst := (List.nodup_cons.mp (by simpa using hnd)).1
    simp only [evalLoop] at h
    split at h
    · cases h
    · rename_i evTxt hev
      have hset : dictSet acc.scores s (extract_confidence_score evTxt) =
          acc.scores ++ [(s, extract_confidence_score evTxt)] := dictSet_not_mem _ hs0
      split at h
      · rename_i hlt
        split at h
        · cases h
        · rename_i vTxt hval
          have his0 : acc.issues.lookup s = none := by
            cases hc : acc.issues.lookup s with
            | none => rfl
            | some w =>
              have hcontra := hisub s (by rw [hc]; rfl)
              rw [hs0] at hcontra
              cases hcontra
          have hset2 : dictSet acc.issues s vTxt = acc.issues ++ [(s, vTxt)] :=
            dictSet_not_mem _ his0
          apply ih _ _ h ?_ hndtl ?_ ?_ ?_
          · intro p hp
            rw [hset, lookup_append_single, hfresh p (List.mem_cons_of_mem _ hp)]
            have hps : p.1 ≠ s := fun hc => hsnot (hc ▸ List.mem_map_of_mem Prod.fst hp)
            simp [hps]
          · intro s' q' hq'
            rw [hset, lookup_append_single] at hq'
            cases hacc : acc.scores.lookup s' with
            | some w =>
              rw [hacc] at hq'
              cases hq'
              have hs' : s' ≠ s := by
                intro hc
                subst hc
                rw [hs0] at hacc
                cases hacc
              have hi := hinv s' q' hacc
              have heqi : (acc.issues ++ [(s, vTxt)]).lookup s' = acc.issues.lookup s' := by
                rw [lookup_append_single]
                cases hisc : acc.issues.lookup s' with
                | some z => rfl
                | none => simp [hs']
              constructor
              · rw [hset2]
                show ((acc.issues ++ [(s, vTxt)]).lookup s').isSome ↔ q' < 7
                rw [heqi]
                exact hi.1
              · have hv : s' ∈ acc.validated ++ [s] ↔ s' ∈ acc.validated := by simp [hs']
                rw [hv]
                exact hi.2
            | none =>
              rw [hacc] at hq'
              by_cases hss : s' = s
              · subst hss
                rw [if_pos rfl] at hq'
                cases hq'
                constructor
                · rw [hset2]
                  show ((acc.issues ++ [(s', vTxt)]).lookup s').isSome ↔ _
                  rw [lookup_append_single, his0]
                  simp [hlt]
                · simp [hlt]
              · rw [if_neg hss] at hq'
                cases hq'
          · intro s' hsome
            rw [hset2, lookup_append_single] at hsome
            rw [hset, lookup_append_single]
            cases hisc : acc.issues.lookup s' with
            | some z =>
              have hsc := hisub s' (by rw [hisc]; rfl)
              cases hacc : acc.scores.lookup s' with
              | some w => simp
              | none =>
                rw [hacc] at hsc
                cases hsc
            | none =>
              rw [hisc] at hsome
              by_cases hss : s' = s
              · subst hss
                rw [hs0]
                simp
              · rw [if_neg hss] at hsome
                simp at hsome
          · intro s' hmem
            rw [hset, lookup_append_single]
            rcases List.mem_append.mp hmem with hm | hm
            · have hsc := hvsub s' hm
              cases hacc : acc.scores.lookup s' with
              | some w => simp
              | none =>
                rw [hacc] at hsc
                cases hsc
            · have hss : s' = s := by simpa using hm
              subst hss
              rw [hs0]
              simp
      · rename_i hnlt
        have his0 : acc.issues.lookup s = none := by
          cases hc : acc.issues.lookup s with
          | none => rfl
          | some w =>
            have hcontra := hisub s (by rw [hc]; rfl)
            rw [hs0] at hcontra
            cases hcontra
        have hvs0 : s ∉ acc.validated := by
          intro hm
          have hcontra := hvsub s hm
          rw [hs0] at hcontra
          cases hcontra
        apply ih _ _ h ?_ hndtl ?_ ?_ ?_
        · intro p hp
          rw [hset, lookup_append_single, hfresh p (List.mem_cons_of_mem _ hp)]
          have hps : p.1 ≠ s := fun hc => hsnot (hc ▸ List.mem_map_of_mem Prod.fst hp)
          simp [hps]
        · intro s' q' hq'
          rw [hset, lookup_append_single] at hq'
          cases hacc : acc.scores.lookup s' with
          | some w =>
            rw [hacc] at hq'
            cases hq'
            exact hinv s' q' hacc
          | none =>
            rw [hacc] at hq'
            by_cases hss : s' = s
            · subst hss
              rw [if_pos rfl] at hq'
              cases hq'
              constructor
              · rw [his0]
                simp [hnlt]
              · simp [hvs0, hnlt]
            · rw [if_neg hss] at hq'
              cases hq'
        · intro s' hsome
          rw [hset, lookup_append_single]
          have hsc := hisub s' hsome
          cases hacc : acc.scores.lookup s' with
          | some w => simp
          | none =>
            rw [hacc] at hsc
            cases hsc
        · intro s' hmem
          rw [hset, lookup_append_single]
          have hsc := hvsub s' hmem
          cases hacc : acc.scores.lookup s' with
          | some w => simp
          | none =>
            rw [hacc] at hsc
            cases hsc

theorem additionalPhase_ok (env : Env) (resp outr : List (String × String)) (n : Nat)
    (h : additionalPhase env resp = .ok (outr, n)) :
    ∃ raw, env.handoff addMsg true = .ok raw ∧
      ((pyLower (stripMarker raw) ∈ noAddSet ∧ outr = resp ∧ n = 0) ∨
       (pyLower (stripMarker raw) ∉ noAddSet ∧ n = 1 ∧
         ∃ cat, env.agentText (categorizePrompt (stripMarker raw)) = .ok cat ∧
           outr = applyAdditions resp (findallBlocks cat))) := by
  unfold additionalPhase at h
  split at h
  · cases h
  · rename_i q2 hagent
    split at h
    · cases h
    · rename_i raw hraw
      refine ⟨raw, hraw, ?_⟩
      split at h
      · rename_i hmem
        cases h
        exact Or.inl ⟨hmem, rfl, rfl⟩
      · rename_i hmem
        split at h
        · cases h
        · rename_i cat hcat
          cases h
          exact Or.inr ⟨hmem, rfl, cat, hcat, rfl⟩

theorem reviewPhase_ok (env : Env) (doc finalDoc : String) (n : Nat)
    (h : reviewPhase env doc = .ok (finalDoc, n)) :
    ∃ raw, env.handoff reviewMsg true = .ok raw ∧
      ((pyLower (stripMarker raw) ∈ noChangeSet ∧ finalDoc = doc ∧ n = 0) ∨
       (pyLower (stripMarker raw) ∉ noChangeSet ∧ n = 1 ∧
         env.agentText (updatePrompt doc (stripMarker raw)) = .ok finalDoc)) := by
  unfold reviewPhase at h
  split at h
  · cases h
  · rename_i raw hraw
    refine ⟨raw, hraw, ?_⟩
    split at h
    · rename_i hmem
      cases h
      exact Or.inl ⟨hmem, rfl, rfl⟩
    · rename_i hmem
      split at h
      · cases h
      · rename_i u hu
        cases h
        exact Or.inr ⟨hmem, rfl, hu⟩

theorem dynamoYesBranch_attempted (env : Env) (slug ts : String) :
    (dynamoYesBranch env slug ts).1.persistAttempted = true := by
  unfold dynamoYesBranch
  split
  · rfl
  · split
    · rfl
    · split <;> rfl

theorem dynamoBlock_ok_fst {env : Env} {slug ts : String} {tr : DynTrace}
    (h : dynamoBlock env slug ts = .ok tr) : tr = (dynamoBlockRun env slug ts).1 := by
  unfold dynamoBlock at h
  split at h
  · rename_i tr2 heq
    cases h
    rw [heq]
  · cases h
  · rename_i tr2 m tb heq
    cases h
    rw [heq]

theorem dynamoBlock_attempted (env : Env) (slug ts : String) (tr : DynTrace)
    (h : dynamoBlock env slug ts = .ok tr) :
    (tr.persistAttempted = true ↔
      ∃ t, env.handoff saveMsg true = .ok t ∧ pyLower (stripMarker t) ∈ yesSet) := by
  have htr := dynamoBlock_ok_fst h
  subst htr
  unfold dynamoBlockRun
  cases hsave : env.handoff saveMsg true with
  | error e =>
    simp only [hsave]
    exact iff_of_false (by simp) (by rintro ⟨t, ht, _⟩; cases ht)
  | ok raw =>
    simp only [hsave]
    by_cases hmem : pyLower (stripMarker raw) ∈ yesSet
    · rw [if_pos hmem]
      exact iff_of_true (dynamoYesBranch_attempted env slug ts) ⟨raw, rfl, hmem⟩
    · rw [if_neg hmem]
      refine iff_of_false (by simp) ?_
      rintro ⟨t, ht, htm⟩
      cases ht
      exact hmem htm

theorem dynamoBlock_caught (env : Env) (slug ts : String) (tr : DynTrace) (m tb : String)
    (h : dynamoBlockRun env slug ts = (tr, some (.exc m tb))) :
    dynamoBlock env slug ts = .ok tr := by
  unfold dynamoBlock
  rw [h]

theorem runBody_ok_elim {pn? : Option String} {useKb : Bool} {env : Env} {out : Out}
    (h : runBody pn? useKb env = .ok out) :
    ∃ pn resp0 resp catCalls ev doc finalDoc updCalls dtr,
      resolveProjectName pn? env = .ok pn ∧
      collectSectionsLoop env useKb (SECTIONS.zip section_questions) [] = .ok resp0 ∧
      additionalPhase env resp0 = .ok (resp, catCalls) ∧
      evalLoop env resp ⟨[], [], []⟩ = .ok ev ∧
      generate_requirements_doc env.docAgent pn (buildRequirementsData pn resp ev.scores) = .ok doc ∧
      reviewPhase env doc = .ok (finalDoc, updCalls) ∧
      env.writeResult = .ok () ∧
      dynamoBlock env (slugOf pn) env.timestamp = .ok dtr ∧
      out = { projectName := pn, preAddResponses := resp0, responses := resp,
              scores := ev.scores, issues := ev.issues, genDocText := doc, finalDoc := finalDoc,
              overall := overallOf ev.scores,
              filename := "requirements_" ++ env.timestamp ++ ".md",
              trace := { validated := ev.validated, categorizeCalls := catCalls,
                         updateCalls := updCalls,
                         fileWritten := some ("requirements_" ++ env.timestamp ++ ".md", finalDoc),
                         dyn := dtr } } := by
  unfold runBody at h
  split at h
  · cases h
  · rename_i pn hpn
    split at h
    · cases h
    · rename_i resp0 hcol
      split at h
      · cases h
      · rename_i resp catCalls hadd
        split at h
        · cases h
        · rename_i ev hev
          split at h
          · cases h
          · rename_i doc hdoc
            split at h
            · cases h
            · rename_i finalDoc updCalls hrev
              split at h
              · cases h
              · rename_i u hwrite
                split at h
                · cases h
                · rename_i dtr hdyn
                  cases h
                  exact ⟨pn, resp0, resp, catCalls, ev, doc, finalDoc, updCalls, dtr,
                    hpn, hcol, hadd, hev, hdoc, hrev, hwrite, hdyn, rfl⟩

theorem phase_keys {env : Env} {useKb : Bool} {resp0 resp : List (String × String)} {catCalls : Nat}
    (hcol : collectSectionsLoop env useKb (SECTIONS.zip section_questions) [] = .ok resp0)
    (hadd : additionalPhase env resp0 = .ok (resp, catCalls)) :
    resp0.map Prod.fst = SECTIONS ∧ resp.map Prod.fst = SECTIONS := by
  have hc := collect_ok env useKb _ _ _ hcol (by intro p _; rfl) (by decide)
  have hkeys0 : resp0.map Prod.fst = SECTIONS := by
    rw [hc]
    rfl
  refine ⟨hkeys0, ?_⟩
  obtain ⟨raw, hraw, hcase⟩ := additionalPhase_ok env resp0 resp catCalls hadd
  rcases hcase with ⟨_, hre, _⟩ | ⟨_, _, cat, hcat, hre⟩
  · rw [hre]
    exact hkeys0
  · rw [hre, applyAdditions_keys]
    exact hkeys0

theorem lookup_of_mapped (f : String → String) :
    ∀ (l : List (String × String)) (s : String), s ∈ l.map Prod.fst →
      (l.map (fun p => (p.1, f p.1))).lookup s = some (f s) := by
  intro l
  induction l with
  | nil =>
    intro s hs
    simp at hs
  | cons p tl ih =>
    intro s hs
    by_cases hsp : s = p.1
    · subst hsp
      simp [List.lookup_cons]
    · have hb : (s == p.1) = false := by simp [hsp]
      simp only [List.map_cons, List.lookup_cons, hb]
      apply ih
      rcases (by simpa using hs : s = p.1 ∨ s ∈ tl.map Prod.fst) with h | h
      · exact absurd h hsp
      · exact h

theorem dropLit_self : ∀ (p r : List Char), dropLit p (p ++ r) = some r := by
  intro p
  induction p with
  | nil => intro r; rfl
  | cons c cs ih => intro r; simp [dropLit, ih]

theorem containsSub_self (p r : List Char) : containsSub p (p ++ r) = true := by
  cases p with
  | nil =>
    cases r with
    | nil => rfl
    | cons c cs => simp [containsSub, dropLit]
  | cons c cs =>
    have hd : dropLit (c :: cs) (c :: (cs ++ r)) = some r := dropLit_self (c :: cs) r
    simp [containsSub, hd]

theorem strContains_left (a b : String) : strContains (a ++ b) a = true := by
  unfold strContains
  rw [String.data_append]
  exact containsSub_self a.data b.data

theorem pyMax_pyMin_bounds (q : ℚ) : 0 ≤ pyMax 0 (pyMin 10 q) ∧ pyMax 0 (pyMin 10 q) ≤ 10 := by
  unfold pyMax pyMin
  split_ifs <;> constructor <;> linarith

/-- C1 (counterexample): the claim that an input containing "-3/10" is
clamped to 0.0 is false on the code: the score pattern `(\d+(\.\d+)?)/10`
cannot capture a sign, so "-3/10" extracts the unsigned 3. -/
theorem c1_counterexample :
    extract_confidence_score "-3/10" = 3 ∧ extract_confidence_score "-3/10" ≠ 0 :=
  ⟨by decide, by decide⟩

/-- C1 (amended): every extracted confidence score is clamped into
[0.0, 10.0]; an input of "confidence: 15/10" yields exactly 10.0; and an
input of "-3/10" yields 3.0, because the pattern captures only the
unsigned numeral. -/
theorem c1_clamping :
    (∀ s : String, 0 ≤ extract_confidence_score s ∧ extract_confidence_score s ≤ 10) ∧
    extract_confidence_score "confidence: 15/10" = 10 ∧
    extract_confidence_score "-3/10" = 3 := by
  refine ⟨fun s => ?_, by decide, by decide⟩
  unfold extract_confidence_score
  exact pyMax_pyMin_bounds _

/-- C2 (counterexample): the claim that every input text containing
"Confidence Score: 8/10" extracts exactly 8.0 is false on the code:
re.search takes the leftmost match, so a text whose earlier
"confidence: 3" line matches first extracts 3.0 even though it contains
the substring. -/
theorem c2_counterexample :
    strContains "confidence: 3\nConfidence Score: 8/10" "Confidence Score: 8/10" = true ∧
    extract_confidence_score "confidence: 3\nConfidence Score: 8/10" = 3 ∧
    extract_confidence_score "confidence: 3\nConfidence Score: 8/10" ≠ 8 :=
  ⟨by decide, by decide, by decide⟩

/-- C2 (amended): the text "Confidence Score: 8/10" itself extracts
exactly 8.0 (via the case-insensitive "score: N" pattern, which wins
before the "N/10" fallback; in a larger text an earlier leftmost match
wins instead), and any text matched by neither pattern extracts exactly
the default 7.0. -/
theorem c2_extraction_default :
    extract_confidence_score "Confidence Score: 8/10" = 8 ∧
    (∀ s : String, noScoreMatch s → extract_confidence_score s = 7) := by
  refine ⟨by decide, fun s hs => ?_⟩
  simp only [extract_confidence_score, hs.1, hs.2]
  decide

/-- C2 (witness): a concrete text with no recognizable number extracts
the default. -/
theorem c2_witness :
    noScoreMatch "Looks good overall" ∧ extract_confidence_score "Looks good overall" = 7 :=
  ⟨⟨rfl, rfl⟩, c2_extraction_default.2 "Looks good overall" ⟨rfl, rfl⟩⟩

/-- C3: in every successful run, a ValidationIssues entry exists for a
section, and the Response Validator was invoked on it, exactly when its
extracted confidence score is strictly below 7.0; a score of exactly 7.0
triggers neither. -/
theorem c3_validation_iff (pn? : Option String) (useKb : Bool) (env : Env) (out : Out)
    (h : runBody pn? useKb env = .ok out) :
    ∀ s q, out.scores.lookup s = some q →
      (((out.issues.lookup s).isSome) ↔ q < 7) ∧ ((s ∈ out.trace.validated) ↔ q < 7) := by
  obtain ⟨pn, resp0, resp, catCalls, ev, doc, finalDoc, updCalls, dtr,
    hpn, hcol, hadd, hev, hdoc, hrev, hwrite, hdyn, hout⟩ := runBody_ok_elim h
  have hnd : (resp.map Prod.fst).Nodup := by
    rw [(phase_keys hcol hadd).2]
    decide
  subst hout
  intro s q hq
  exact evalLoop_inv env resp _ _ hev (by intro p _; rfl) hnd
    (by intro s q hq; cases hq) (by intro s hs; exact absurd hs (by simp))
    (by intro s hs; exact absurd hs (by simp)) s q hq

/-- C3 (witness): concrete sections scoring 3 (validated), 8 (not), and
exactly 7 at the boundary (not validated, no entry). -/
theorem c3_witness :
    ∃ out, runBody (some "P") false c3Env = .ok out ∧
      (((out.issues.lookup "PROJECT SCOPE").isSome) ↔ (3 : ℚ) < 7) ∧
      (("PROJECT SCOPE" ∈ out.trace.validated) ↔ (3 : ℚ) < 7) ∧
      (((out.issues.lookup "USER STORIES").isSome) ↔ (8 : ℚ) < 7) ∧
      (((out.issues.lookup "TECHNICAL CONSTRAINTS").isSome) ↔ (7 : ℚ) < 7) ∧
      (("TECHNICAL CONSTRAINTS" ∈ out.trace.validated) ↔ (7 : ℚ) < 7) := by
  have h1 := c3_validation_iff (some "P") false c3Env _ rfl "PROJECT SCOPE" 3 rfl
  have h2 := c3_validation_iff (some "P") false c3Env _ rfl "USER STORIES" 8 rfl
  have h3 := c3_validation_iff (some "P") false c3Env _ rfl "TECHNICAL CONSTRAINTS" 7 rfl
  exact ⟨_, rfl, h1.1, h1.2, h2.1, h3.1, h3.2⟩

/-- C4 (counterexample): the claim that each stored answer is the
checkpoint text with the fixed marker stripped as a prefix fails: a reply
carrying the marker in the middle is stored with the occurrence removed
(str.replace removes every occurrence), which differs from prefix
stripping. -/
theorem c4_counterexample :
    ∃ out, runBody (some "Demo") false c4Env = .ok out ∧
      c4Env.handoff (inputMsg "PROJECT SCOPE") false = .ok "aUser response received: b" ∧
      out.preAddResponses.lookup "PROJECT SCOPE" = some "ab" ∧
      stripLeadingMarkerSpec "aUser response received: b" = "aUser response received: b" ∧
      ("ab" : String) ≠ "aUser response received: b" :=
  ⟨_, rfl, rfl, rfl, rfl, by decide⟩

/-- C4 (amended): in every run reaching evaluation the answer map has
exactly the five fixed sections as keys, in order; each entry is the text
returned by the checkpoint of that section with every occurrence of the
marker substring "User response received: " removed; and when the
additional-information reply is a "nothing to add" token, the map used for
evaluation is exactly the collected one. -/
theorem c4_answer_map (pn? : Option String) (useKb : Bool) (env : Env) (out : Out)
    (h : runBody pn? useKb env = .ok out) :
    out.responses.map Prod.fst = SECTIONS ∧
    out.preAddResponses.map Prod.fst = SECTIONS ∧
    (∀ s t, s ∈ SECTIONS → env.handoff (inputMsg s) false = .ok t →
      out.preAddResponses.lookup s = some (stripMarker t)) ∧
    (∀ ta, env.handoff addMsg true = .ok ta → pyLower (stripMarker ta) ∈ noAddSet →
      out.responses = out.preAddResponses) := by
  obtain ⟨pn, resp0, resp, catCalls, ev, doc, finalDoc, updCalls, dtr,
    hpn, hcol, hadd, hev, hdoc, hrev, hwrite, hdyn, hout⟩ := runBody_ok_elim h
  have hkeys := phase_keys hcol hadd
  have hc := collect_ok env useKb _ _ _ hcol (by intro p _; rfl) (by decide)
  subst hout
  refine ⟨hkeys.2, hkeys.1, ?_, ?_⟩
  · intro s t hsmem ht
    show resp0.lookup s = some (stripMarker t)
    rw [hc]
    show ((SECTIONS.zip section_questions).map (fun p => (p.1, answerOf env p.1))).lookup s = _
    rw [lookup_of_mapped (answerOf env) _ s (by rw [show (SECTIONS.zip section_questions).map Prod.fst = SECTIONS from rfl]; exact hsmem)]
    simp [answerOf, ht, okText]
  · intro ta hta htmem
    obtain ⟨raw, hraw, hcase⟩ := additionalPhase_ok env resp0 resp catCalls hadd
    rw [hraw] at hta
    cases hta
    rcases hcase with ⟨_, hre, _⟩ | ⟨hnm, _, _⟩
    · show resp = resp0
      exact hre
    · exact absurd htmem hnm

/-- C4 (witness): the end-to-end environment stores all five answers
verbatim and leaves them unchanged after a "no" additional reply. -/
theorem c4_witness :
    ∃ out, runBody (some "Task Management App Demo") false e2eEnv = .ok out ∧
      out.responses.map Prod.fst = SECTIONS ∧
      out.preAddResponses.lookup "PROJECT SCOPE" = some (stripMarker "Build a todo app for teams") ∧
      out.responses = out.preAddResponses := by
  have h := c4_answer_map (some "Task Management App Demo") false e2eEnv _ rfl
  exact ⟨_, rfl, h.1, h.2.2.1 "PROJECT SCOPE" _ (by decide) rfl, h.2.2.2 "no" rfl (by decide)⟩

/-- C5: after the additional-information checkpoint, a case-insensitive
"nothing to add" reply leaves every answer unchanged and makes no
classification call; any other reply triggers exactly one classification
call whose output is parsed into section blocks, each appended to the
existing answer of the named section — keys are preserved and every old
answer is a prefix of its new value (nothing deleted or replaced). -/
theorem c5_additional_append (pn? : Option String) (useKb : Bool) (env : Env) (out : Out)
    (h : runBody pn? useKb env = .ok out) :
    ∀ t, env.handoff addMsg true = .ok t →
      ((pyLower (stripMarker t) ∈ noAddSet →
          out.responses = out.preAddResponses ∧ out.trace.categorizeCalls = 0) ∧
       (pyLower (stripMarker t) ∉ noAddSet →
          out.trace.categorizeCalls = 1 ∧
          (∀ cat, env.agentText (categorizePrompt (stripMarker t)) = .ok cat →
            out.responses = applyAdditions out.preAddResponses (findallBlocks cat)) ∧
          out.responses.map Prod.fst = out.preAddResponses.map Prod.fst ∧
          (∀ s v, out.preAddResponses.lookup s = some v →
            ∃ ext, out.responses.lookup s = some (v ++ ext)))) := by
  obtain ⟨pn, resp0, resp, catCalls, ev, doc, finalDoc, updCalls, dtr,
    hpn, hcol, hadd, hev, hdoc, hrev, hwrite, hdyn, hout⟩ := runBody_ok_elim h
  subst hout
  intro t ht
  obtain ⟨raw, hraw, hcase⟩ := additionalPhase_ok env resp0 resp catCalls hadd
  rw [hraw] at ht
  cases ht
  constructor
  · intro hmem
    rcases hcase with ⟨_, hre, hn⟩ | ⟨hnm, _, _⟩
    · exact ⟨hre, hn⟩
    · exact absurd hmem hnm
  · intro hmem
    rcases hcase with ⟨hm, _, _⟩ | ⟨_, hn, cat, hcat, hre⟩
    · exact absurd hm hmem
    · refine ⟨hn, ?_, ?_, ?_⟩
      · intro cat2 hcat2
        rw [hcat] at hcat2
        cases hcat2
        exact hre
      · show resp.map Prod.fst = resp0.map Prod.fst
        rw [hre, applyAdditions_keys]
      · intro s v hv
        show ∃ ext, resp.lookup s = some (v ++ ext)
        rw [hre]
        exact applyAdditions_extends _ _ s v hv

/-- C5 (witness): concrete additional information for USER STORIES is
appended to the answer of that section after exactly one classification
call. -/
theorem c5_witness :
    ∃ out, runBody (some "P") false c5Env = .ok out ∧
      out.trace.categorizeCalls = 1 ∧
      out.responses = applyAdditions out.preAddResponses
        (findallBlocks "USER STORIES: extra workflow detail") ∧
      out.responses.lookup "USER STORIES" =
        some "no\n\nAdditional Information:\nextra workflow detail" := by
  have h := c5_additional_append (some "P") false c5Env _ rfl
    "USER STORIES: extra workflow detail" rfl
  have h2 := (h.2 (by decide))
  exact ⟨_, rfl, h2.1, h2.2.1 _ rfl, rfl⟩

/-- C6: after the review checkpoint, a case-insensitive "no changes" reply
leaves the document unchanged with no update call; any other reply makes
exactly one update call, built from the original document and the feedback
text, whose output replaces the document; the update-call count never
exceeds one. -/
theorem c6_review_once (pn? : Option String) (useKb : Bool) (env : Env) (out : Out)
    (h : runBody pn? useKb env = .ok out) :
    out.trace.updateCalls ≤ 1 ∧
    ∀ t, env.handoff reviewMsg true = .ok t →
      ((pyLower (stripMarker t) ∈ noChangeSet →
          out.finalDoc = out.genDocText ∧ out.trace.updateCalls = 0) ∧
       (pyLower (stripMarker t) ∉ noChangeSet →
          out.trace.updateCalls = 1 ∧
          env.agentText (updatePrompt out.genDocText (stripMarker t)) = .ok out.finalDoc)) := by
  obtain ⟨pn, resp0, resp, catCalls, ev, doc, finalDoc, updCalls, dtr,
    hpn, hcol, hadd, hev, hdoc, hrev, hwrite, hdyn, hout⟩ := runBody_ok_elim h
  subst hout
  obtain ⟨raw, hraw, hcase⟩ := reviewPhase_ok env doc finalDoc updCalls hrev
  constructor
  · show updCalls ≤ 1
    rcases hcase with ⟨_, _, hn⟩ | ⟨_, hn, _⟩ <;> omega
  · intro t ht
    rw [hraw] at ht
    cases ht
    constructor
    · intro hmem
      rcases hcase with ⟨_, hd, hn⟩ | ⟨hnm, _, _⟩
      · exact ⟨hd, hn⟩
      · exact absurd hmem hnm
    · intro hmem
      rcases hcase with ⟨hm, _, _⟩ | ⟨_, hn, hu⟩
      · exact absurd hm hmem
      · exact ⟨hn, hu⟩

/-- C6 (witness): a concrete change request replaces the document with
the output of the single update call. -/
theorem c6_witness :
    ∃ out, runBody (some "P") false c6Env = .ok out ∧
      out.trace.updateCalls = 1 ∧ out.finalDoc = "# Updated Doc" ∧ out.genDocText = "# Doc" := by
  have h := (c6_review_once (some "P") false c6Env _ rfl).2 "Please add a risks section" rfl
  exact ⟨_, rfl, (h.2 (by decide)).1, rfl, rfl⟩

/-- C7: query_knowledge_base returns a string for every retrieval outcome
other than a user interrupt: an empty result list yields the fixed
no-information string, and a service error is caught and converted into a
string containing "Error querying knowledge base". -/
theorem c7_query_robust (retrieve : String → Except PyExc (List RetrResult)) (q : String) :
    (retrieve q = .ok [] →
      query_knowledge_base retrieve q =
        .ok "No information found in the knowledge base for this query.") ∧
    (∀ m tb, retrieve q = .error (.exc m tb) →
      ∃ s, query_knowledge_base retrieve q = .ok s ∧
        strContains s "Error querying knowledge base" = true) ∧
    (∀ res, retrieve q = .ok res → ∃ s, query_knowledge_base retrieve q = .ok s) := by
  refine ⟨fun h => ?_, fun m tb h => ?_, fun res h => ?_⟩
  · simp [query_knowledge_base, h]
  · refine ⟨"Error querying knowledge base: " ++ m, by simp [query_knowledge_base, h], ?_⟩
    rw [show ("Error querying knowledge base: " : String) =
      "Error querying knowledge base" ++ ": " from rfl, String.append_assoc]
    exact strContains_left _ _
  · by_cases hres : res.isEmpty
    · refine ⟨"No information found in the knowledge base for this query.", ?_⟩
      simp [query_knowledge_base, h, hres]
    · refine ⟨joinSep "\n" (formatResults 1 res), ?_⟩
      simp [query_knowledge_base, h, hres]

/-- C7 (witness): concrete empty and failing retrievals. -/
theorem c7_witness :
    query_knowledge_base (fun _ => .ok []) "q" =
      .ok "No information found in the knowledge base for this query." ∧
    ∃ s, query_knowledge_base (fun _ => .error (.exc "service down" "tb")) "q" = .ok s ∧
      strContains s "Error querying knowledge base" = true :=
  ⟨(c7_query_robust (fun _ => .ok []) "q").1 rfl,
   (c7_query_robust (fun _ => .error (.exc "service down" "tb")) "q").2.1 "service down" "tb" rfl⟩

/-- C8 (counterexample): the claim that a KeyboardInterrupt anywhere in
the run yields status interrupted fails: an interrupt raised by the
DynamoDB table-existence probe is swallowed by the bare except clause —
the probe ran, its result was the interrupt, yet the run ends with status
"success". -/
theorem c8_counterexample :
    ∃ out, runBody (some "P") false c8KiEnv = .ok out ∧
      c8KiEnv.tableStatus = Except.error PyExc.keyboardInterrupt ∧
      out.trace.dyn.probeCalls = 1 ∧
      statusOf (gather_requirements (some "P") false c8KiEnv) = "success" ∧
      statusOf (gather_requirements (some "P") false c8KiEnv) ≠ "interrupted" :=
  ⟨_, rfl, rfl, rfl, rfl, by decide⟩

/-- C8 (amended): every invocation returns exactly one RunResult whose
status is success, interrupted or error; a KeyboardInterrupt that reaches
the top level (every one except an interrupt swallowed by the bare except
around the DynamoDB table-existence probe) yields interrupted; any other
exception reaching the top level yields error carrying the message and
traceback; no exception escapes. -/
theorem c8_terminal (pn? : Option String) (useKb : Bool) (env : Env) :
    (statusOf (gather_requirements pn? useKb env) = "success" ∨
     statusOf (gather_requirements pn? useKb env) = "interrupted" ∨
     statusOf (gather_requirements pn? useKb env) = "error") ∧
    (runBody pn? useKb env = .error .keyboardInterrupt →
      gather_requirements pn? useKb env = .interrupted "Session interrupted by user") ∧
    (∀ m tb, runBody pn? useKb env = .error (.exc m tb) →
      gather_requirements pn? useKb env = .error m tb) := by
  cases hrb : runBody pn? useKb env with
  | ok out =>
    refine ⟨Or.inl ?_, fun hc => ?_, fun m tb hc => ?_⟩
    · simp [gather_requirements, statusOf, hrb]
    · cases hc
    · cases hc
  | error e =>
    cases e with
    | keyboardInterrupt =>
      refine ⟨Or.inr (Or.inl ?_), fun _ => ?_, fun m tb hc => ?_⟩
      · simp [gather_requirements, statusOf, hrb]
      · simp [gather_requirements, hrb]
      · simp at hc
    | exc m tb =>
      refine ⟨Or.inr (Or.inr ?_), fun hc => ?_, fun m2 tb2 hc => ?_⟩
      · simp [gather_requirements, statusOf, hrb]
      · simp at hc
      · obtain ⟨hm, htb⟩ := by simpa using hc
        subst hm
        subst htb
        simp [gather_requirements, hrb]

/-- C8 (witness): a KeyboardInterrupt during the file write reaches the
top level and produces the interrupted RunResult. -/
theorem c8_witness :
    gather_requirements (some "P") false c8IntEnv = .interrupted "Session interrupted by user" :=
  (c8_terminal (some "P") false c8IntEnv).2.1 rfl

/-- C9: every successful run records the final document, written verbatim
to a file named requirements_<timestamp>.md, and reports exactly five
total responses; the returned record is the success RunResult. -/
theorem c9_file_stats (pn? : Option String) (useKb : Bool) (env : Env) (out : Out)
    (h : runBody pn? useKb env = .ok out) :
    out.trace.fileWritten = some (out.filename, out.finalDoc) ∧
    out.filename = "requirements_" ++ env.timestamp ++ ".md" ∧
    (statsOf useKb env out).totalResponses = 5 ∧
    gather_requirements pn? useKb env = .success out.projectName out.filename (statsOf useKb env out) := by
  obtain ⟨pn, resp0, resp, catCalls, ev, doc, finalDoc, updCalls, dtr,
    hpn, hcol, hadd, hev, hdoc, hrev, hwrite, hdyn, hout⟩ := runBody_ok_elim h
  have hkeys := (phase_keys hcol hadd).2
  have hlen : resp.length = 5 := by
    have h5 := congrArg List.length hkeys
    rw [List.length_map] at h5
    exact h5.trans rfl
  subst hout
  refine ⟨rfl, rfl, ?_, ?_⟩
  · show resp.length = 5
    exact hlen
  · unfold gather_requirements
    rw [h]

/-- C9 (witness): the canned end-to-end scenario — the five section
replies, "no" to the additional-information checkpoint, and a stubbed
generator returning "# Req Doc" — produces a success status, a file
containing exactly "# Req Doc", and total_responses equal to 5. -/
theorem c9_witness :
    ∃ out, runBody (some "Task Management App Demo") false e2eEnv = .ok out ∧
      out.finalDoc = "# Req Doc" ∧
      out.trace.fileWritten = some ("requirements_20250101_120000.md", "# Req Doc") ∧
      (statsOf false e2eEnv out).totalResponses = 5 ∧
      statusOf (gather_requirements (some "Task Management App Demo") false e2eEnv) = "success" := by
  obtain ⟨hfw, hfn, htot, hg⟩ := c9_file_stats (some "Task Management App Demo") false e2eEnv _ rfl
  refine ⟨_, rfl, rfl, rfl, htot, ?_⟩
  rw [hg]
  rfl

/-- C10: in every successful run the persistence branch is entered exactly
when the reply of the save checkpoint is, case-insensitively, an affirmative
token; an ordinary exception leaving the DynamoDB block body (table
creation and put_item included) is caught locally by the block; and the
RunResult of the run is the success record carrying the already-saved local
filename. -/
theorem c10_persistence (pn? : Option String) (useKb : Bool) (env : Env) (out : Out)
    (h : runBody pn? useKb env = .ok out) :
    (out.trace.dyn.persistAttempted = true ↔
      ∃ t, env.handoff saveMsg true = .ok t ∧ pyLower (stripMarker t) ∈ yesSet) ∧
    (∀ slug ts tr m tb, dynamoBlockRun env slug ts = (tr, some (.exc m tb)) →
      dynamoBlock env slug ts = .ok tr) ∧
    gather_requirements pn? useKb env =
      .success out.projectName out.filename (statsOf useKb env out) := by
  obtain ⟨pn, resp0, resp, catCalls, ev, doc, finalDoc, updCalls, dtr,
    hpn, hcol, hadd, hev, hdoc, hrev, hwrite, hdyn, hout⟩ := runBody_ok_elim h
  subst hout
  refine ⟨?_, ?_, ?_⟩
  · exact dynamoBlock_attempted env (slugOf pn) env.timestamp dtr hdyn
  · intro slug ts tr m tb htr
    exact dynamoBlock_caught env slug ts tr m tb htr
  · unfold gather_requirements
    rw [h]

/-- C10 (witness): with an affirmative save reply and put_item raising an
ordinary exception, the persistence branch runs, the exception is caught,
and the run still ends with status "success". -/
theorem c10_witness :
    ∃ out, runBody (some "P") false c10Env = .ok out ∧
      c10Env.putItem = Except.error (.exc "boom" "trace") ∧
      out.trace.dyn.persistAttempted = true ∧
      statusOf (gather_requirements (some "P") false c10Env) = "success" := by
  obtain ⟨hiff, hcaught, hg⟩ := c10_persistence (some "P") false c10Env _ rfl
  refine ⟨_, rfl, rfl, hiff.mpr ⟨"yes", rfl, by decide⟩, ?_⟩
  rw [hg]
  rfl

end ReqDemo
